import Mathlib

/-!
Verification development for the signac-flow auxiliary sources:
`.sync-contributors.py` (contributor metadata merger) and
`flow/util/misc.py` (scoped process-environment mutators and the
log-redirection scope).  Python data and control flow are embedded
shallowly: dataclasses become structures, `dict`/JSON values become an
inductive type, context managers become functions returning the state
visible to the scope body together with the state after exit for each
exit kind (normal return or propagated exception).
-/

/-- Exit kind of a scope body: normal return, or a propagated exception.
A `try/finally` teardown runs in both cases. -/
inductive Outcome where
  | normal : Outcome
  | raised : Outcome
deriving DecidableEq, Repr

/-! ## `.sync-contributors.py` -/

/-- The `Contributor` dataclass: `last_names`, `first_names`,
`affiliation` are required, `orcid` defaults to `None`.  Dataclass
equality (used by `c not in authors`) is field-wise over all four
attributes. -/
structure Contributor where
  last_names : String
  first_names : String
  affiliation : String
  orcid : Option String
deriving DecidableEq, Repr

/-- A raw citation record as passed to `Contributor.from_citation_author`
via keyword expansion: each of the relevant keys may be absent. -/
structure CitationAuthor where
  family_names : Option String
  given_names : Option String
  affiliation : Option String
  orcid : Option String
deriving DecidableEq, Repr

/-- `Contributor.from_citation_author`: `citation.pop('family-names')` and
`citation.pop('given-names')` raise `KeyError` when the key is absent, and
the dataclass constructor raises `TypeError` when the required
`affiliation` argument is missing. -/
def Contributor.from_citation_author (c : CitationAuthor) : Except String Contributor :=
  match c.family_names with
  | none => .error "KeyError: family-names"
  | some ln =>
    match c.given_names with
    | none => .error "KeyError: given-names"
    | some fn =>
      match c.affiliation with
      | none => .error "TypeError: missing affiliation"
      | some aff => .ok ⟨ln, fn, aff, c.orcid⟩

/-- Python's `str.lstrip(chars)`: removes the longest leading run of
characters each of which occurs in `chars` (a character *set*, not a
prefix). -/
def pyLstrip (s chars : String) : String :=
  String.mk (s.toList.dropWhile (fun c => chars.toList.contains c))

/-- JSON values as handled by the script (`json.loads` / `json.dumps`). -/
inductive JVal where
  | null : JVal
  | bool : Bool → JVal
  | num : Int → JVal
  | str : String → JVal
  | arr : List JVal → JVal
  | obj : List (String × JVal) → JVal

/-- `Contributor.as_zenodo_creator`: builds
`dict(name='{} {}'.format(first, last), affiliation=...)` and, when
`self.orcid` is truthy (not `None` and not the empty string), adds an
`orcid` key holding `self.orcid.lstrip('https://orcid.org/')`. -/
def Contributor.as_zenodo_creator (c : Contributor) : JVal :=
  let base := [("name", JVal.str (c.first_names ++ " " ++ c.last_names)),
               ("affiliation", JVal.str c.affiliation)]
  match c.orcid with
  | none => JVal.obj base
  | some o =>
    if o = "" then JVal.obj base
    else JVal.obj (base ++ [("orcid", JVal.str (pyLstrip o "https://orcid.org/"))])

/-- Spec-side notion: two contributor entries are field-wise equal when
all attributes, the optional identifier included, coincide. -/
def fieldEq (c a : Contributor) : Prop :=
  c.last_names = a.last_names ∧ c.first_names = a.first_names ∧
    c.affiliation = a.affiliation ∧ c.orcid = a.orcid

instance (c a : Contributor) : Decidable (fieldEq c a) := by
  unfold fieldEq; infer_instance

/-- `zenodo['creators'] = [a.as_zenodo_creator() for a in authors]`. -/
def syncCreators (authors : List Contributor) : List JVal :=
  authors.map Contributor.as_zenodo_creator

/-- `zenodo['contributors'] =
[c.as_zenodo_creator() for c in contributors if c not in authors]`. -/
def syncContributors (authors contributors : List Contributor) : List JVal :=
  (contributors.filter (fun c => !(authors.contains c))).map Contributor.as_zenodo_creator

/-- Insert a key/value pair into a key-sorted association list
(codepoint-lexicographic order on keys, as Python's `sorted` uses). -/
def insertSortedKV (p : String × JVal) : List (String × JVal) → List (String × JVal)
  | [] => [p]
  | q :: rest => if p.1 < q.1 then p :: q :: rest else q :: insertSortedKV p rest

/-- Sort an association list by key, for `sort_keys=True`. -/
def sortByKey (kvs : List (String × JVal)) : List (String × JVal) :=
  kvs.foldr insertSortedKV []

/-- Lowercase four-digit hexadecimal rendering of a code point, as used
by `json.dumps` for `\u` escapes. -/
def hex4 (n : Nat) : String :=
  let ds := Nat.toDigits 16 n
  String.mk (List.replicate (4 - ds.length) '0' ++ ds)

/-- Escape one character the way `json.dumps` (default `ensure_ascii=True`)
does: printable ASCII other than quote and backslash is literal, the
common control characters use their short escapes, everything else
becomes `\uXXXX` (with surrogate pairs beyond the BMP). -/
def escChar (c : Char) : String :=
  if c = '"' then "\\\""
  else if c = '\\' then "\\\\"
  else if c = '\n' then "\\n"
  else if c = '\t' then "\\t"
  else if c = '\r' then "\\r"
  else if c = '\x08' then "\\b"
  else if c = '\x0c' then "\\f"
  else if c.toNat < 0x20 then "\\u" ++ hex4 c.toNat
  else if c.toNat < 0x7f then String.mk [c]
  else if c.toNat ≤ 0xffff then "\\u" ++ hex4 c.toNat
  else
    let v := c.toNat - 0x10000
    "\\u" ++ hex4 (0xd800 + v / 0x400) ++ "\\u" ++ hex4 (0xdc00 + v % 0x400)

/-- JSON string literal rendering. -/
def jquote (s : String) : String :=
  "\"" ++ String.join (s.toList.map escChar) ++ "\""

mutual
/-- Recursively sort every object's keys, the effect of `sort_keys=True`. -/
def sortJson : JVal → JVal
  | .obj kvs => .obj (sortByKey (sortKVs kvs))
  | .arr xs => .arr (sortList xs)
  | .null => .null
  | .bool b => .bool b
  | .num n => .num n
  | .str s => .str s

/-- Key-sort the values of a list of JSON values. -/
def sortList : List JVal → List JVal
  | [] => []
  | x :: xs => sortJson x :: sortList xs

/-- Key-sort the values of an association list. -/
def sortKVs : List (String × JVal) → List (String × JVal)
  | [] => []
  | (k, v) :: ps => (k, sortJson v) :: sortKVs ps
end

/-- Python's `sep.join(parts)`. -/
def joinWith (sep : String) : List String → String
  | [] => ""
  | [s] => s
  | s :: rest => s ++ sep ++ joinWith sep rest

/-- `indent=4`: the indentation string at nesting depth `n`. -/
def jindent (n : Nat) : String :=
  String.mk (List.replicate (4 * n) ' ')

mutual
/-- Serialize a (key-sorted) JSON value at nesting depth `d`, following
`json.dumps(..., indent=4)`: children of a non-empty container are each
on their own line at depth `d + 1`, separated by `,`, and the closing
bracket sits at depth `d`; empty containers collapse. -/
def dumpVal : Nat → JVal → String
  | _, .null => "null"
  | _, .bool b => if b then "true" else "false"
  | _, .num n => toString n
  | _, .str s => jquote s
  | _, .arr [] => "[]"
  | d, .arr (x :: xs) =>
    "[\n" ++ joinWith ",\n" (dumpElems (d + 1) (x :: xs)) ++
      "\n" ++ jindent d ++ "]"
  | _, .obj [] => "\x7b\x7d"
  | d, .obj (p :: ps) =>
    "\x7b\n" ++ joinWith ",\n" (dumpMembers (d + 1) (p :: ps)) ++
      "\n" ++ jindent d ++ "\x7d"

/-- Lines for the elements of an array at depth `d`. -/
def dumpElems : Nat → List JVal → List String
  | _, [] => []
  | d, x :: xs => (jindent d ++ dumpVal d x) :: dumpElems d xs

/-- Lines for the members of an object at depth `d` (`": "` separator,
as `indent` forces in `json.dumps`). -/
def dumpMembers : Nat → List (String × JVal) → List String
  | _, [] => []
  | d, (k, v) :: ps => (jindent d ++ jquote k ++ ": " ++ dumpVal d v) :: dumpMembers d ps
end

/-- `json.dumps(v, indent=4, sort_keys=True)`. -/
def dumps (v : JVal) : String :=
  dumpVal 0 (sortJson v)

/-- Python `dict` assignment `zenodo[k] = v` on an insertion-ordered
mapping: an existing key keeps its position with its value replaced, a
new key is appended. -/
def setKey (kvs : List (String × JVal)) (k : String) (v : JVal) : List (String × JVal) :=
  if kvs.any (fun p => p.1 == k) then
    kvs.map (fun p => if p.1 == k then (k, v) else p)
  else kvs ++ [(k, v)]

/-- The merged zenodo record built by `sync`: the parsed `.zenodo.json`
object with its `creators` and `contributors` keys replaced. -/
def syncedZenodo (authors contributors : List Contributor)
    (zenodo : List (String × JVal)) : List (String × JVal) :=
  setKey (setKey zenodo "creators" (.arr (syncCreators authors)))
    "contributors" (.arr (syncContributors authors contributors))

/-- The observable effect of `sync`'s output step, given the merged
record, the `--in-place` flag and the current contents of
`.zenodo.json`: the pair (contents of `.zenodo.json` afterwards, payload
printed to stdout if any).  With the flag the serialization overwrites
the file; without it the serialization is printed and the file is left
as it was. -/
def syncOutput (authors contributors : List Contributor)
    (zenodo : List (String × JVal)) (in_place : Bool) (oldFile : String) :
    String × Option String :=
  let out := dumps (JVal.obj (syncedZenodo authors contributors zenodo))
  if in_place then (out, none) else (oldFile, some out)

/-! ## `flow/util/misc.py` -/

/-- `os.path.isabs` on POSIX: the path starts with a slash. -/
def pyIsAbs (s : String) : Bool :=
  match s.toList with
  | [] => false
  | c :: _ => c = '/'

/-- Split a character list at a delimiter, keeping empty pieces, as
Python's `str.split(delim)` does for a one-character delimiter. -/
def splitCharAux (delim : Char) : List Char → List Char → List String
  | [], acc => [String.mk acc.reverse]
  | c :: cs, acc =>
    if c = delim then String.mk acc.reverse :: splitCharAux delim cs []
    else splitCharAux delim cs (c :: acc)

/-- Python's `s.split(':')`. -/
def splitColon (s : String) : List String :=
  splitCharAux ':' s.toList []

/-- The duplicate scan actually performed by
`add_path_to_environment_pythonpath`: `for path_ in pythonpath:`
iterates over the *characters* of the variable's raw string value, and
checks `os.path.isabs(path_) and os.path.realpath(path_) == path` for
each one-character string.  `realpath` abstracts `os.path.realpath`
(filesystem-dependent canonicalization). -/
def charMatch (realpath : String → String) (path pythonpath : String) : Bool :=
  pythonpath.toList.any (fun ch =>
    let s := String.mk [ch]
    pyIsAbs s && realpath s == path)

/-- Spec-side duplicate scan: iterate over the colon-delimited entries of
the variable's value and check the same per-entry condition. -/
def entryMatch (realpath : String → String) (path pythonpath : String) : Bool :=
  (splitColon pythonpath).any (fun e => pyIsAbs e && realpath e == path)

/-- `add_path_to_environment_pythonpath(path)` as a scope: given the
canonicalization function, the argument `path0`, and the prior state of
the `PYTHONPATH` variable (`none` = unset), returns the value the
variable holds while the scope body runs, together with the value after
exit for each exit kind.  Branches follow the source: a truthy prior
value is scanned with `charMatch` (match: yield with no mutation and no
teardown); on no match `':'.join([path] + pythonpath.split(':'))` is set
and the prior string is re-assigned in `finally`; a falsy prior value
(unset, or the empty string, since `if pythonpath:` tests truthiness)
leads to setting the variable to the canonical path and `del`eting it in
`finally`. -/
def pythonpathScope (realpath : String → String) (path0 : String)
    (env : Option String) : Option String × (Outcome → Option String) :=
  let path := realpath path0
  match env with
  | some pythonpath =>
    if pythonpath = "" then
      (some path, fun _ => none)
    else if charMatch realpath path pythonpath then
      (some pythonpath, fun _ => some pythonpath)
    else
      (some (joinWith ":" (path :: splitColon pythonpath)),
       fun _ => some pythonpath)
  | none => (some path, fun _ => none)

/-- `switch_to_directory(root)` as a scope over the working directory:
given the prior directory and the optional target, returns the directory
at body entry and, for each exit kind and each directory the body left
the process in, the directory after exit.  `root=None` yields without
touching the state; otherwise `os.chdir(root)` runs before the body and
`os.chdir(cwd)` runs in `finally`. -/
def switch_to_directory (cwd : String) : Option String → String × (Outcome → String → String)
  | none => (cwd, fun _ bodyEnd => bodyEnd)
  | some root => (root, fun _ _ => cwd)

/-- `logging.Logger.addHandler`: appends the handler unless it is
already present. -/
def addHandler (hs : List Nat) (h : Nat) : List Nat :=
  if h ∈ hs then hs else hs ++ [h]

/-- `logging.Logger.removeHandler`: removes the first occurrence of the
handler when present. -/
def removeHandler (hs : List Nat) (h : Nat) : List Nat :=
  if h ∈ hs then hs.erase h else hs

/-- `redirect_log` as a scope over the logger's handler list: the
freshly constructed `FileHandler` (identified by `h`) is added before
the body and removed in `finally`.  Returns the handler list the body
sees and the list after exit for each exit kind. -/
def redirect_log_scope (hs : List Nat) (h : Nat) : List Nat × (Outcome → List Nat) :=
  let during := addHandler hs h
  (during, fun _ => removeHandler during h)

/-- A signac job as `redirect_log` uses it: `job.fn(name)` resolves a
filename inside the job's workspace directory. -/
structure Job where
  fn : String → String

set_option linter.unusedVariables false in
/-- The path the `FileHandler` constructed by `redirect_log(job,
filename, ...)` writes to: the source builds it as
`logging.FileHandler(filename=job.fn('run.log'))`. -/
def redirect_log_filehandler_path (job : Job) (filename : String) : String :=
  job.fn "run.log"

/-! ## Theorems -/

/-- Dataclass equality coincides with field-wise equality over all four
attributes. -/
lemma Contributor.eq_iff_fieldEq (c a : Contributor) : c = a ↔ fieldEq c a := by
  cases c
  cases a
  simp [fieldEq]

/-- `c not in authors` tests membership by field-wise equality. -/
lemma contains_eq_decide_fieldEq (A : List Contributor) (c : Contributor) :
    A.contains c = decide (∃ a ∈ A, fieldEq c a) := by
  have h : (∃ a ∈ A, fieldEq c a) ↔ c ∈ A := by
    constructor
    · rintro ⟨a, ha, hf⟩
      rwa [(Contributor.eq_iff_fieldEq c a).mpr hf]
    · intro hm
      exact ⟨c, hm, (Contributor.eq_iff_fieldEq c c).mp rfl⟩
  simp only [h]
  simp [List.elem_eq_mem]

/-- C1: the merged record's contributors are exactly the entries of the
contributors list that are not field-wise equal (all attributes, the
optional identifier included) to some author, in input order, and the
creators are exactly the authors transformed, in input order. -/
theorem sync_merge_fieldwise_dedup (A B : List Contributor) :
    syncCreators A = A.map Contributor.as_zenodo_creator ∧
    syncContributors A B =
      (B.filter (fun c => decide (¬ ∃ a ∈ A, fieldEq c a))).map
        Contributor.as_zenodo_creator := by
  refine ⟨rfl, ?_⟩
  unfold syncContributors
  congr 1
  refine List.filter_congr ?_
  intro c _
  rw [contains_eq_decide_fieldEq, decide_not]

/-- C2 (amended): after the scope exits, normally or via a propagated
failure, a prior *non-empty* value V is restored exactly; a prior unset
variable stays unset, and a prior *empty-string* value is deleted (the
source tests `if pythonpath:`, so the empty string takes the unset
branch and is removed, not restored). -/
theorem pythonpath_scope_restores_prior (realpath : String → String)
    (path : String) (env : Option String) (oc : Outcome) :
    ((env = none ∨ env = some "") → (pythonpathScope realpath path env).2 oc = none) ∧
    (∀ V, V ≠ "" → env = some V → (pythonpathScope realpath path env).2 oc = some V) := by
  constructor
  · rintro (rfl | rfl) <;> simp [pythonpathScope]
  · rintro V hV rfl
    by_cases hc : charMatch realpath (realpath path) V <;>
      simp [pythonpathScope, hV, hc]

/-- Witness for C2's amended theorem at a concrete non-empty prior
value and a failing body. -/
theorem pythonpath_scope_restores_prior_witness :
    ("x" : String) ≠ "" ∧
    (pythonpathScope (fun s => s) "/a" (some "x")).2 Outcome.raised = some "x" :=
  ⟨by decide,
   (pythonpath_scope_restores_prior (fun s => s) "/a" (some "x") Outcome.raised).2
     "x" (by decide) rfl⟩

/-- C2 counterexample: with the variable previously set to the empty
string, the scope deletes the variable on exit instead of restoring the
empty-string value, refuting the claim that any prior string value V is
restored exactly. -/
theorem pythonpath_empty_value_deleted :
    ¬ (pythonpathScope (fun s => s) "/a" (some "")).2 Outcome.normal = some "" := by
  decide

/-- C3: the duplicate scan iterates the characters of the raw variable
string, not its colon-delimited entries.  With the variable set to
`/usr` and target `/usr` (its own canonical form), the entry-wise
condition of the claim holds, yet the character-wise scan of the source
fails, so the scope mutates the variable to `/usr:/usr` instead of
taking the no-mutation branch. -/
theorem pythonpath_duplicate_scan_iterates_chars :
    entryMatch (fun s => s) "/usr" "/usr" = true ∧
    charMatch (fun s => s) "/usr" "/usr" = false ∧
    (pythonpathScope (fun s => s) "/usr" (some "/usr")).1 = some "/usr:/usr" := by
  refine ⟨by decide, by decide, by decide⟩

/-- C4: with a non-null target the body starts in the target directory
and the prior directory is restored on both exit kinds whatever
directory the body ended in; with a null target the scope mutates
nothing. -/
theorem switch_to_directory_restores (D T : String) (oc : Outcome) (bodyEnd : String) :
    (switch_to_directory D (some T)).1 = T ∧
    (switch_to_directory D (some T)).2 oc bodyEnd = D ∧
    (switch_to_directory D none).1 = D ∧
    (switch_to_directory D none).2 oc bodyEnd = bodyEnd :=
  ⟨rfl, rfl, rfl, rfl⟩

/-- C5: `lstrip` removes a leading run of characters drawn from the
argument treated as a character set, not the literal prefix: on the
identifier `https://orcid.org/christina` (the URL prefix followed by
`christina`) the code emits `na`, while prefix removal would leave
`christina`. -/
theorem orcid_lstrip_strips_charset_not_head :
    "https://orcid.org/" ++ "christina" = "https://orcid.org/christina" ∧
    pyLstrip "https://orcid.org/christina" "https://orcid.org/" = "na" ∧
    Contributor.as_zenodo_creator
        ⟨"Doe", "Christina", "X", some "https://orcid.org/christina"⟩ =
      JVal.obj [("name", .str "Christina Doe"), ("affiliation", .str "X"),
                ("orcid", .str "na")] ∧
    ("na" : String) ≠ "christina" :=
  ⟨rfl, rfl, rfl, by decide⟩

/-- C6: a record lacking any of the three required fields (last name,
first name, affiliation) makes `Contributor.from_citation_author` raise,
so no merged record is produced from it. -/
theorem from_citation_author_missing_field_errors (c : CitationAuthor)
    (h : c.family_names = none ∨ c.given_names = none ∨ c.affiliation = none) :
    ∃ e, Contributor.from_citation_author c = .error e := by
  unfold Contributor.from_citation_author
  split
  · exact ⟨_, rfl⟩
  · split
    · exact ⟨_, rfl⟩
    · split
      · exact ⟨_, rfl⟩
      · simp_all

/-- Witness for C6 at a record missing its last name. -/
theorem from_citation_author_missing_field_errors_witness :
    (CitationAuthor.mk none (some "Jane") (some "X") none).family_names = none ∧
    ∃ e, Contributor.from_citation_author
      (CitationAuthor.mk none (some "Jane") (some "X") none) = .error e :=
  ⟨rfl, from_citation_author_missing_field_errors
    (CitationAuthor.mk none (some "Jane") (some "X") none) (Or.inl rfl)⟩

/-- C7: with the in-place flag the merged record's deterministic
serialization (keys sorted, four-space indentation) overwrites the
target file and nothing is printed; without it the same serialization is
printed and the file keeps its old contents.  The final conjunct
exhibits the serialization shape on a concrete record. -/
theorem sync_in_place_effect (authors contributors : List Contributor)
    (zenodo : List (String × JVal)) (oldFile : String) :
    syncOutput authors contributors zenodo true oldFile =
      (dumps (JVal.obj (syncedZenodo authors contributors zenodo)), none) ∧
    syncOutput authors contributors zenodo false oldFile =
      (oldFile, some (dumps (JVal.obj (syncedZenodo authors contributors zenodo)))) ∧
    dumps (JVal.obj [("b", .num 1), ("a", .str "x")]) =
      "\x7b\n    \"a\": \"x\",\n    \"b\": 1\n\x7d" := by
  refine ⟨rfl, rfl, ?_⟩
  simp +decide [dumps, sortJson, sortKVs, sortList, sortByKey, insertSortedKV,
    dumpVal, dumpElems, dumpMembers, jindent, jquote, escChar, hex4, joinWith]

/-- C8: the concrete scenario of the spec: Jane Doe is excluded from the
contributors as a duplicate author, names are formed first-names-first,
and no identifier key is emitted when none is present. -/
theorem sync_concrete_scenario :
    syncCreators [⟨"Doe", "Jane", "X", none⟩] =
      [JVal.obj [("name", .str "Jane Doe"), ("affiliation", .str "X")]] ∧
    syncContributors [⟨"Doe", "Jane", "X", none⟩]
        [⟨"Doe", "Jane", "X", none⟩, ⟨"Roe", "Rick", "Y", none⟩] =
      [JVal.obj [("name", .str "Rick Roe"), ("affiliation", .str "Y")]] :=
  ⟨rfl, rfl⟩

/-- C9: for a fresh file handler the body sees exactly the prior handler
list with that one handler appended, and after either exit kind the list
equals its prior state. -/
theorem redirect_log_scope_restores (hs : List Nat) (h : Nat) (oc : Outcome)
    (hfresh : h ∉ hs) :
    (redirect_log_scope hs h).1 = hs ++ [h] ∧ (redirect_log_scope hs h).2 oc = hs := by
  have hadd : addHandler hs h = hs ++ [h] := by simp [addHandler, hfresh]
  refine ⟨hadd, ?_⟩
  have hmem : h ∈ hs ++ [h] := by simp
  show removeHandler (addHandler hs h) h = hs
  rw [hadd, removeHandler, if_pos hmem, List.erase_append_right _ hfresh,
    List.erase_cons_head]
  simp

/-- Witness for C9 with one prior handler and a failing body. -/
theorem redirect_log_scope_restores_witness :
    (1 : Nat) ∉ [0] ∧
    ((redirect_log_scope [0] 1).1 = [0] ++ [1] ∧
      (redirect_log_scope [0] 1).2 Outcome.raised = [0]) :=
  ⟨by decide, redirect_log_scope_restores [0] 1 Outcome.raised (by decide)⟩

/-- C10: the file handler's path is `job.fn('run.log')` for every value
of the `filename` parameter; the parameter does not influence it. -/
theorem redirect_log_ignores_filename (job : Job) (f g : String) :
    redirect_log_filehandler_path job f = job.fn "run.log" ∧
    redirect_log_filehandler_path job f = redirect_log_filehandler_path job g :=
  ⟨rfl, rfl⟩
